import Mathlib

/-!
Verification development for the adjoint-optimization power-splitter example
notebook (`04-Splitter-checkpoint.ipynb`).  The notebook's own logic —
parameter bookkeeping, boundary bitmask construction, the filter/projection
`mapping`, the objective `J`, the optimizer callback `f`, and the beta
continuation loop — is shallowly embedded here.  External library calls
(the FDTD simulator, `conic_filter`, `tanh_projection`, the nlopt optimizer)
are held abstract as function parameters; everything the notebook itself
computes is embedded exactly, with Python floats represented by exact
rationals.
-/

namespace Splitter

/-! ### Physical and discretization parameters (notebook cell 3) -/

def waveguide_width : ℚ := 1/2
def design_region_width : ℚ := 5/2
def design_region_height : ℚ := 5/2
def arm_separation : ℚ := 1
def waveguide_length : ℚ := 1/2
def pml_size : ℚ := 1
def resolution : ℕ := 20
def minimum_length : ℚ := 9/100
def eta_e : ℚ := 55/100
def eta_i : ℚ := 1/2
def eta_d : ℚ := 1 - eta_e
def design_region_resolution : ℕ := 5 * resolution

/-- `Nx = int(design_region_resolution * design_region_width)` (cell 7);
Python's `int` truncates toward zero, i.e. floors a nonnegative value. -/
def Nx : ℕ := ((design_region_resolution : ℚ) * design_region_width).floor.toNat

/-- `Ny = int(design_region_resolution * design_region_height)` (cell 7). -/
def Ny : ℕ := ((design_region_resolution : ℚ) * design_region_height).floor.toNat

/-! ### Spatial grid and boundary bitmasks (cell 11)

`np.linspace(a, b, n)` places `n` evenly spaced samples with exact endpoints;
sample `i` is `a + i * (b - a) / (n - 1)`. -/

def linspace (a b : ℚ) (n : ℕ) (i : ℕ) : ℚ := a + i * ((b - a) / ((n : ℚ) - 1))

def x_g (i : ℕ) : ℚ :=
  linspace (-(design_region_width / 2)) (design_region_width / 2) Nx i

def y_g (j : ℕ) : ℚ :=
  linspace (-(design_region_height / 2)) (design_region_height / 2) Ny j

/-- `left_wg_mask = (X_g == -design_region_width/2) & (|Y_g| <= waveguide_width/2)`. -/
def left_wg_mask (i j : ℕ) : Bool :=
  decide (x_g i = -(design_region_width / 2)) &&
    decide (|y_g j| ≤ waveguide_width / 2)

/-- `top_right_wg_mask = (X_g == design_region_width/2) &
(|Y_g + arm_separation/2| <= waveguide_width/2)`. -/
def top_right_wg_mask (i j : ℕ) : Bool :=
  decide (x_g i = design_region_width / 2) &&
    decide (|y_g j + arm_separation / 2| ≤ waveguide_width / 2)

/-- `bottom_right_wg_mask = (X_g == design_region_width/2) &
(|Y_g - arm_separation/2| <= waveguide_width/2)`. -/
def bottom_right_wg_mask (i j : ℕ) : Bool :=
  decide (x_g i = design_region_width / 2) &&
    decide (|y_g j - arm_separation / 2| ≤ waveguide_width / 2)

/-- `Si_mask = left_wg_mask | top_right_wg_mask | bottom_right_wg_mask`. -/
def Si_mask (i j : ℕ) : Bool :=
  left_wg_mask i j || top_right_wg_mask i j || bottom_right_wg_mask i j

/-- `border_mask`: the four coordinate comparisons of cell 11. -/
def border_mask (i j : ℕ) : Bool :=
  decide (x_g i = -(design_region_width / 2)) ||
    decide (x_g i = design_region_width / 2) ||
    decide (y_g j = -(design_region_height / 2)) ||
    decide (y_g j = design_region_height / 2)

/-- `SiO2_mask = border_mask.copy(); SiO2_mask[Si_mask] = False`. -/
def SiO2_mask (i j : ℕ) : Bool := border_mask i j && !(Si_mask i j)

/-! Spec-side pointwise formulas for claim C7, written from the claim's
wording ("within `waveguide_width/2` of `+arm_separation/2` or of
`-arm_separation/2`"; "on any of the four edges"). -/

/-- Spec formula: Si where the left edge meets the input waveguide, or the
right edge meets either output arm. -/
def Si_mask_formula (i j : ℕ) : Prop :=
  (x_g i = -(design_region_width / 2) ∧ |y_g j| ≤ waveguide_width / 2) ∨
    (x_g i = design_region_width / 2 ∧
      (|y_g j - arm_separation / 2| ≤ waveguide_width / 2 ∨
        |y_g j + arm_separation / 2| ≤ waveguide_width / 2))

/-- Spec formula: the point lies on one of the four edges of the design
region. -/
def border_mask_formula (i j : ℕ) : Prop :=
  x_g i = -(design_region_width / 2) ∨ x_g i = design_region_width / 2 ∨
    y_g j = -(design_region_height / 2) ∨ y_g j = design_region_height / 2

/-! ### Initial design vector and bounds (cell 21)

The 2D masks (shape `(Nx, Ny)`, `indexing="ij"`) are flattened in C order:
flat index `k` corresponds to grid point `(k / Ny, k % Ny)`. -/

def n : ℕ := Nx * Ny

def Si_mask_flat (k : ℕ) : Bool := Si_mask (k / Ny) (k % Ny)

def SiO2_mask_flat (k : ℕ) : Bool := SiO2_mask (k / Ny) (k % Ny)

/-- `x = 0.5 * ones(n); x[Si_mask] = 1; x[SiO2_mask] = 0` — the last
assignment wins at any index where both writes would apply. -/
def x_init (k : ℕ) : ℚ :=
  if SiO2_mask_flat k then 0 else if Si_mask_flat k then 1 else 1/2

/-- `lb = zeros(Nx*Ny); lb[Si_mask] = 1`. -/
def lb (k : ℕ) : ℚ := if Si_mask_flat k then 1 else 0

/-- `ub = ones(Nx*Ny); ub[SiO2_mask] = 0`. -/
def ub (k : ℕ) : ℚ := if SiO2_mask_flat k then 0 else 1

/-- The three flat arrays as length-`n` lists (shape consistency). -/
def x_init_vec : List ℚ := (List.range n).map x_init

def lb_vec : List ℚ := (List.range n).map lb

def ub_vec : List ℚ := (List.range n).map ub

/-! ### Beta continuation schedule (cell 21)

`cur_beta = 4; for iters in range(num_betas): ... f(a, g, cur_beta) ...;
cur_beta = cur_beta * beta_scale`.  The lambda passed to
`set_max_objective` closes over `cur_beta`, which is only updated after
`solver.optimize` returns, so round `k` sees the value of `cur_beta` at the
top of iteration `k`. -/

def beta_scale : ℕ := 2
def num_betas : ℕ := 6
def update_factor : ℕ := 12
def cur_beta_init : ℕ := 4

/-- The betas seen by the objective in successive rounds, generated exactly
as the loop does: emit the current beta, then scale it. -/
def betas_from : ℕ → ℕ → List ℕ
  | 0, _ => []
  | m + 1, b => b :: betas_from m (b * beta_scale)

def betas_used : List ℕ := betas_from num_betas cur_beta_init

/-- The value of `cur_beta` after `m` completed rounds. -/
def cur_beta_after : ℕ → ℕ
  | 0 => cur_beta_init
  | m + 1 => cur_beta_after m * beta_scale

/-- `cur_beta` once the loop has finished all `num_betas` rounds; this is the
sharpness used by the final spectrum evaluation (cell 25) and the final
`opt.update_design` (cell 28). -/
def final_beta : ℕ := cur_beta_after num_betas

/-- Per-round optimizer configuration: each round constructs a fresh
`nlopt.opt(algorithm, n)` and sets `maxeval = update_factor`. -/
structure SolverConfig where
  dim : ℕ
  maxeval : ℕ
  beta : ℕ
  deriving DecidableEq, Repr

def round_configs : List SolverConfig :=
  betas_used.map (fun b => { dim := n, maxeval := update_factor, beta := b })

/-! ### The `mapping` function (cell 9)

`conic_filter` and `tanh_projection` live in the external `meep.adjoint`
library and are abstract parameters here, as is `filter_radius`
(`get_conic_radius_from_eta_e(minimum_length, eta_e)` involves a square
root and has no exact rational value).  A 2D array is a list of rows;
`numpy`'s C-order `flatten` is `List.flatten`. -/

/-- The notebook's `mapping`: conic-filter the raw design vector over the
design-region geometry, tanh-project with steepness `beta` and threshold
`eta`, then flatten. -/
def mapping (cf : List ℚ → ℚ → ℚ → ℚ → ℕ → List (List ℚ))
    (tp : List (List ℚ) → ℚ → ℚ → List (List ℚ))
    (filter_radius : ℚ) (x : List ℚ) (eta beta : ℚ) : List ℚ :=
  let filtered_field :=
    cf x filter_radius design_region_width design_region_height
      design_region_resolution
  let projected_field := tp filtered_field beta eta
  projected_field.flatten

/-- Spec-side composition for C4: the flattened result of projecting the
conic-filtered field — written from the claim's wording, to be compared
with `mapping`. -/
def filter_project_flatten (cf : List ℚ → ℚ → ℚ → ℚ → ℕ → List (List ℚ))
    (tp : List (List ℚ) → ℚ → ℚ → List (List ℚ))
    (filter_radius : ℚ) (x : List ℚ) (eta beta : ℚ) : List ℚ :=
  (tp (cf x filter_radius design_region_width design_region_height
      design_region_resolution) beta eta).flatten

/-- Argument passed to both the final spectrum evaluation (cell 25,
`opt([mapping(x, eta_i, cur_beta)], need_gradient=False)`) and the final
design update (cell 28, `opt.update_design([mapping(x, eta_i, cur_beta)])`)
after the loop has left `cur_beta = final_beta`. -/
def final_design_arg (cf : List ℚ → ℚ → ℚ → ℚ → ℕ → List (List ℚ))
    (tp : List (List ℚ) → ℚ → ℚ → List (List ℚ))
    (filter_radius : ℚ) (x : List ℚ) : List ℚ :=
  mapping cf tp filter_radius x eta_i (final_beta : ℚ)

/-! ### The objective `J` (cell 15)

Complex numbers are pairs `(re, im)` of exact rationals; `npa.abs(z) ** 2`
is embedded exactly as `re² + im²`. -/

/-- A complex mode coefficient. -/
abbrev Cx : Type := ℚ × ℚ

/-- Complex division `z / w` on `(re, im)` pairs. -/
def cdiv (z w : Cx) : Cx :=
  ((z.1 * w.1 + z.2 * w.2) / (w.1 ^ 2 + w.2 ^ 2),
    (z.2 * w.1 - z.1 * w.2) / (w.1 ^ 2 + w.2 ^ 2))

/-- `|z| ** 2 = re² + im²`. -/
def abs2 (z : Cx) : ℚ := z.1 ^ 2 + z.2 ^ 2

/-- `power = npa.abs(top / source) ** 2 + npa.abs(bottom / source) ** 2`,
elementwise along the frequency axis. -/
def power_list (source top bottom : List Cx) : List ℚ :=
  List.zipWith (fun s tb => abs2 (cdiv tb.1 s) + abs2 (cdiv tb.2 s))
    source (top.zip bottom)

/-- `J(source, top, bottom) = npa.mean(power)`; `mean` of a vector is its
sum divided by its length. -/
def J (source top bottom : List Cx) : ℚ :=
  (power_list source top bottom).sum / (power_list source top bottom).length

/-- Spec-side formula for C5: the arithmetic mean over the `nf` frequencies
of `|top_i / source_i|² + |bottom_i / source_i|²`. -/
def J_mean_formula (nf : ℕ) (s t b : Fin nf → Cx) : ℚ :=
  (∑ i, (abs2 (cdiv (t i) (s i)) + abs2 (cdiv (b i) (s i)))) / (nf : ℚ)

/-! ### The optimizer callback `f` (cell 19) -/

/-- Mutable notebook state touched by `f`: the global `evaluation_history`
list and the one-element `cur_iter` counter. -/
structure LoopState where
  evaluation_history : List ℚ
  cur_iter : ℕ
  deriving DecidableEq, Repr

/-- `np.max(np.real(f0))`: the largest real part over the frequency axis
(`f0` always has ten entries in the notebook, so the empty case is junk). -/
def max_real (f0 : List Cx) : ℚ :=
  match f0.map Prod.fst with
  | [] => 0
  | r :: rs => rs.foldl max r

/-- One call of the objective callback `f(v, gradient, cur_beta)`.  The
simulator output `f0` (one complex value per frequency) and the value
computed by `tensor_jacobian_product` are external inputs.  Printing and
plotting touch none of the tracked state.  Returns the new state, the
gradient array after the in-place write (performed only when
`gradient.size > 0`), and `np.real(f0)` as handed back to nlopt. -/
def f_step (s : LoopState) (f0 : List Cx) (gradient : List ℚ)
    (tjp_result : List ℚ) : LoopState × List ℚ × List ℚ :=
  ({ evaluation_history := s.evaluation_history ++ [max_real f0],
     cur_iter := s.cur_iter + 1 },
    if gradient.length > 0 then tjp_result else gradient,
    f0.map Prod.fst)

/-! ### Error propagation model (claim C8)

The notebook has no `try`/`except`, no validation and no retry; its
functions thread library results straight through.  The fallible variants
below make each wrapped library call return `Except` and sequence them
exactly as the notebook does. -/

/-- `mapping` with fallible library calls. -/
def mappingE {E : Type} (cf : List ℚ → ℚ → ℚ → ℚ → ℕ → Except E (List (List ℚ)))
    (tp : List (List ℚ) → ℚ → ℚ → Except E (List (List ℚ)))
    (filter_radius : ℚ) (x : List ℚ) (eta beta : ℚ) : Except E (List ℚ) := do
  let filtered_field ←
    cf x filter_radius design_region_width design_region_height
      design_region_resolution
  let projected_field ← tp filtered_field beta eta
  pure projected_field.flatten

/-- The callback `f` with a fallible simulator call (`opt(...)`) and a
fallible `tensor_jacobian_product` call. -/
def fE {E : Type} (opt_call : List ℚ → Except E (List Cx))
    (tjp : Unit → Except E (List ℚ))
    (s : LoopState) (mapped_v : List ℚ) (gradient : List ℚ) :
    Except E (LoopState × List ℚ × List ℚ) := do
  let f0 ← opt_call mapped_v
  let gradient' ← if gradient.length > 0 then tjp () else pure gradient
  pure ({ evaluation_history := s.evaluation_history ++ [max_real f0],
          cur_iter := s.cur_iter + 1 },
    gradient', f0.map Prod.fst)

end Splitter

namespace Splitter

/-- The design grid is 250 × 250. -/
theorem Nx_eq : Nx = 250 := by
  norm_num [Nx, design_region_resolution, resolution, design_region_width]
  rfl

/-- Companion to `Nx_eq` for the second grid axis. -/
theorem Ny_eq : Ny = 250 := by
  norm_num [Ny, design_region_resolution, resolution, design_region_height]
  rfl

/-- C7: The boundary bitmasks are defined pointwise by coordinate comparisons
on the Nx-by-Ny design grid: `Si_mask` holds exactly at left-edge points with
`|y| ≤ waveguide_width/2` and right-edge points within `waveguide_width/2` of
`±arm_separation/2`; `border_mask` holds exactly on the four edges of the
design region. -/
theorem Si_border_mask_pointwise (i j : ℕ) :
    (Si_mask i j = true ↔ Si_mask_formula i j) ∧
      (border_mask i j = true ↔ border_mask_formula i j) := by
  constructor
  · simp only [Si_mask, left_wg_mask, top_right_wg_mask, bottom_right_wg_mask,
      Bool.or_eq_true, Bool.and_eq_true, decide_eq_true_eq, Si_mask_formula]
    tauto
  · simp only [border_mask, Bool.or_eq_true, decide_eq_true_eq,
      border_mask_formula]
    tauto

/-- Witness for C7 at the grid corner `(0, 0)`. -/
theorem Si_border_mask_pointwise_witness :
    (Si_mask 0 0 = true ↔ Si_mask_formula 0 0) ∧
      (border_mask 0 0 = true ↔ border_mask_formula 0 0) :=
  Si_border_mask_pointwise 0 0

/-- C9: `Si_mask` and `SiO2_mask` are disjoint, every `Si_mask` point is a
border point, and their union is exactly `border_mask`. -/
theorem Si_SiO2_partition_border (i j : ℕ) :
    (Si_mask i j && SiO2_mask i j) = false ∧
      (Si_mask i j = true → border_mask i j = true) ∧
      (Si_mask i j || SiO2_mask i j) = border_mask i j := by
  have hSiB : Si_mask i j = true → border_mask i j = true := by
    simp only [Si_mask, left_wg_mask, top_right_wg_mask, bottom_right_wg_mask,
      Bool.or_eq_true, Bool.and_eq_true, decide_eq_true_eq, border_mask]
    tauto
  refine ⟨?_, hSiB, ?_⟩
  · cases h : Si_mask i j <;> simp [SiO2_mask, h]
  · cases h : Si_mask i j
    · simp [SiO2_mask, h]
    · simp [SiO2_mask, h, hSiB h]

/-- Witness for C9 at the grid corner `(0, 0)`. -/
theorem Si_SiO2_partition_border_witness :
    (Si_mask 0 0 && SiO2_mask 0 0) = false ∧
      (Si_mask 0 0 = true → border_mask 0 0 = true) ∧
      (Si_mask 0 0 || SiO2_mask 0 0) = border_mask 0 0 :=
  Si_SiO2_partition_border 0 0

/-- C2: `x`, `lb` and `ub` all have length `Nx * Ny`; at every index the
bound ordering `lb ≤ x ≤ ub` holds; and the three arrays carry exactly the
mask-determined values (`lb` is 0 except 1 on Si-mask indices, `ub` is 1
except 0 on SiO2-mask indices, `x` is 1/2 except 1 on Si-mask and 0 on
SiO2-mask indices). -/
theorem design_bounds_ordered :
    (x_init_vec.length = Nx * Ny ∧ lb_vec.length = Nx * Ny ∧
      ub_vec.length = Nx * Ny) ∧
    ∀ k : ℕ,
      (lb k ≤ x_init k ∧ x_init k ≤ ub k) ∧
      lb k = (if Si_mask_flat k then 1 else 0) ∧
      ub k = (if SiO2_mask_flat k then 0 else 1) ∧
      x_init k =
        (if SiO2_mask_flat k then 0 else if Si_mask_flat k then 1 else 1/2) := by
  refine ⟨⟨by simp [x_init_vec, n], by simp [lb_vec, n], by simp [ub_vec, n]⟩, ?_⟩
  intro k
  refine ⟨?_, rfl, rfl, rfl⟩
  have hdisj : SiO2_mask_flat k = true → Si_mask_flat k = false := by
    intro h1
    simp only [SiO2_mask_flat, SiO2_mask, Bool.and_eq_true, Bool.not_eq_eq_eq_not,
      Bool.not_true] at h1
    exact h1.2
  cases h1 : SiO2_mask_flat k
  · cases h2 : Si_mask_flat k
    · simp [lb, ub, x_init, h1, h2]
      norm_num
    · simp [lb, ub, x_init, h1, h2]
  · simp [lb, ub, x_init, h1, hdisj h1]

/-- C1: the sharpness passed to the objective in round `k` of the
continuation loop is `4 * 2^k` (so it starts at 4 and doubles each round),
and for rounds `j < k` the sharpness of round `j` is strictly smaller than
that of round `k`. -/
theorem beta_schedule_increasing :
    betas_used.length = num_betas ∧
    (∀ k : Fin 6, betas_used.getD k 0 = 4 * 2 ^ (k : ℕ)) ∧
    ∀ j k : Fin 6, j < k → betas_used.getD j 0 < betas_used.getD k 0 := by
  decide

/-- Witness for C1 at rounds `j = 0 < k = 1`. -/
theorem beta_schedule_increasing_witness :
    betas_used.getD 0 0 = 4 * 2 ^ 0 ∧ betas_used.getD 0 0 < betas_used.getD 1 0 :=
  ⟨beta_schedule_increasing.2.1 0, beta_schedule_increasing.2.2 0 1 (by decide)⟩

/-- C6: the continuation loop runs exactly `num_betas = 6` rounds; every
round's freshly constructed solver has `maxeval = update_factor = 12`; and
any per-round evaluation counts respecting those caps sum to at most 72. -/
theorem continuation_schedule_bounded :
    round_configs.length = 6 ∧
    (∀ c ∈ round_configs, c.maxeval = 12) ∧
    ∀ evals : List ℕ, evals.length = round_configs.length →
      (∀ e ∈ evals, e ≤ update_factor) → evals.sum ≤ 72 := by
  refine ⟨by decide, by decide, ?_⟩
  intro evals hlen hb
  have h := List.sum_le_card_nsmul evals update_factor hb
  rw [hlen] at h
  simpa [update_factor, round_configs, betas_used] using h

/-- Witness for C6: six rounds each hitting the cap of 12 evaluations. -/
theorem continuation_schedule_bounded_witness :
    ([12, 12, 12, 12, 12, 12] : List ℕ).sum ≤ 72 :=
  continuation_schedule_bounded.2.2 [12, 12, 12, 12, 12, 12]
    (by decide) (by decide)

/-- C10: after the loop, `cur_beta = 4 * 2^6 = 256`; every sharpness used
during optimization is at most 128, strictly less than 256; and the final
spectrum evaluation and final design update both pass
`mapping(x, eta_i, 256)`. -/
theorem final_beta_exceeds_schedule :
    final_beta = 256 ∧
    final_beta = cur_beta_init * beta_scale ^ num_betas ∧
    betas_used.foldr max 0 = 128 ∧
    (∀ b ∈ betas_used, b < final_beta) ∧
    ∀ cf tp r x, final_design_arg cf tp r x = mapping cf tp r x eta_i 256 := by
  refine ⟨by decide, by decide, by decide, by decide, ?_⟩
  intro cf tp r x
  have h : ((final_beta : ℕ) : ℚ) = 256 := by
    norm_num [final_beta, cur_beta_after, cur_beta_init, beta_scale, num_betas]
  rw [final_design_arg, h]

/-- Witness for C10: the first-round sharpness 4 is below the final 256. -/
theorem final_beta_exceeds_schedule_witness : 4 < final_beta :=
  final_beta_exceeds_schedule.2.2.2.1 4 (by decide)

/-- C4: `mapping` is exactly filter-then-project-then-flatten. -/
theorem mapping_is_filter_project_flatten
    (cf : List ℚ → ℚ → ℚ → ℚ → ℕ → List (List ℚ))
    (tp : List (List ℚ) → ℚ → ℚ → List (List ℚ))
    (filter_radius : ℚ) (x : List ℚ) (eta beta : ℚ) :
    mapping cf tp filter_radius x eta beta =
      filter_project_flatten cf tp filter_radius x eta beta := rfl

/-- C3: one call of the objective callback appends exactly one scalar — the
maximum over frequencies of the real part of the objective value — to
`evaluation_history`, leaves every previously stored entry in place, and
increments `cur_iter` by exactly one. -/
theorem f_appends_one_eval (s : LoopState) (f0 : List Cx)
    (gradient tjp_result : List ℚ) :
    (f_step s f0 gradient tjp_result).1.evaluation_history =
        s.evaluation_history ++ [max_real f0] ∧
    (f_step s f0 gradient tjp_result).1.evaluation_history.take
        s.evaluation_history.length = s.evaluation_history ∧
    (f_step s f0 gradient tjp_result).1.evaluation_history.length =
        s.evaluation_history.length + 1 ∧
    (f_step s f0 gradient tjp_result).1.cur_iter = s.cur_iter + 1 := by
  refine ⟨rfl, ?_, by simp [f_step], rfl⟩
  simp [f_step, List.take_left]

end Splitter

namespace Splitter

/-- `power_list` on cons cells computes head and tail separately. -/
theorem power_list_cons (s0 t0 b0 : Cx) (ss ts bs : List Cx) :
    power_list (s0 :: ss) (t0 :: ts) (b0 :: bs) =
      (abs2 (cdiv t0 s0) + abs2 (cdiv b0 s0)) :: power_list ss ts bs := rfl

/-- `power_list` on `List.ofFn` inputs is the `List.ofFn` of the pointwise
power. -/
theorem power_list_ofFn (nf : ℕ) (s t b : Fin nf → Cx) :
    power_list (List.ofFn s) (List.ofFn t) (List.ofFn b) =
      List.ofFn (fun i => abs2 (cdiv (t i) (s i)) + abs2 (cdiv (b i) (s i))) := by
  induction nf with
  | zero => rfl
  | succ m ih => simp [List.ofFn_succ, power_list_cons, ih]

/-- Swapping the two transmitted-arm arguments permutes each elementwise sum. -/
theorem power_list_swap : ∀ source top bottom : List Cx,
    power_list source top bottom = power_list source bottom top := by
  intro source
  induction source with
  | nil => intro top bottom; rfl
  | cons s0 ss ih =>
    intro top bottom
    cases top with
    | nil => cases bottom <;> rfl
    | cons t0 ts =>
      cases bottom with
      | nil => rfl
      | cons b0 bs => simp [power_list_cons, ih ts bs, add_comm]

/-- C5: for coefficient arrays of a common length `nf` with elementwise
nonzero source, `J` is the arithmetic mean over frequencies of
`|top/source|² + |bottom/source|²`, and `J` is symmetric under exchanging
its top and bottom arguments. -/
theorem J_mean_of_mode_coefficients (nf : ℕ) (s t b : Fin nf → Cx)
    (hnz : ∀ i, s i ≠ ((0 : ℚ), (0 : ℚ))) :
    J (List.ofFn s) (List.ofFn t) (List.ofFn b) = J_mean_formula nf s t b ∧
    ∀ source top bottom : List Cx,
      J source top bottom = J source bottom top := by
  constructor
  · rw [J, J_mean_formula, power_list_ofFn]
    simp [List.sum_ofFn]
  · intro source top bottom
    rw [J, J, power_list_swap source top bottom]

/-- Witness for C5 with one frequency, `source = top = 1`, `bottom = i`. -/
theorem J_mean_of_mode_coefficients_witness :
    (∀ i : Fin 1, (fun _ : Fin 1 => ((1 : ℚ), (0 : ℚ))) i ≠ ((0 : ℚ), (0 : ℚ))) ∧
    (J (List.ofFn fun _ : Fin 1 => ((1 : ℚ), (0 : ℚ)))
        (List.ofFn fun _ : Fin 1 => ((1 : ℚ), (0 : ℚ)))
        (List.ofFn fun _ : Fin 1 => ((0 : ℚ), (1 : ℚ))) =
      J_mean_formula 1 (fun _ => ((1 : ℚ), (0 : ℚ)))
        (fun _ => ((1 : ℚ), (0 : ℚ))) (fun _ => ((0 : ℚ), (1 : ℚ))) ∧
    ∀ source top bottom : List Cx,
      J source top bottom = J source bottom top) :=
  ⟨by decide,
    J_mean_of_mode_coefficients 1 (fun _ => ((1 : ℚ), (0 : ℚ)))
      (fun _ => ((1 : ℚ), (0 : ℚ))) (fun _ => ((0 : ℚ), (1 : ℚ))) (by decide)⟩

/-- C8: the notebook's functions perform no error handling — a failing
library call's error propagates unchanged through `mapping` and through the
callback `f`, and on inputs where every library call succeeds the notebook
code succeeds as well, raising nothing of its own. -/
theorem no_error_handling :
    (∀ (E : Type) (cf : List ℚ → ℚ → ℚ → ℚ → ℕ → Except E (List (List ℚ)))
        (tp : List (List ℚ) → ℚ → ℚ → Except E (List (List ℚ)))
        (r : ℚ) (x : List ℚ) (eta beta : ℚ) (e : E),
      cf x r design_region_width design_region_height design_region_resolution =
          Except.error e →
      mappingE cf tp r x eta beta = Except.error e) ∧
    (∀ (E : Type) (cf : List ℚ → ℚ → ℚ → ℚ → ℕ → Except E (List (List ℚ)))
        (tp : List (List ℚ) → ℚ → ℚ → Except E (List (List ℚ)))
        (r : ℚ) (x : List ℚ) (eta beta : ℚ) (a : List (List ℚ)) (e : E),
      cf x r design_region_width design_region_height design_region_resolution =
          Except.ok a →
      tp a beta eta = Except.error e →
      mappingE cf tp r x eta beta = Except.error e) ∧
    (∀ (E : Type) (cf : List ℚ → ℚ → ℚ → ℚ → ℕ → Except E (List (List ℚ)))
        (tp : List (List ℚ) → ℚ → ℚ → Except E (List (List ℚ)))
        (r : ℚ) (x : List ℚ) (eta beta : ℚ) (a b : List (List ℚ)),
      cf x r design_region_width design_region_height design_region_resolution =
          Except.ok a →
      tp a beta eta = Except.ok b →
      mappingE cf tp r x eta beta = Except.ok b.flatten) ∧
    (∀ (E : Type) (opt_call : List ℚ → Except E (List Cx))
        (tjp : Unit → Except E (List ℚ)) (s : LoopState)
        (mv gradient : List ℚ) (e : E),
      opt_call mv = Except.error e →
      fE opt_call tjp s mv gradient = Except.error e) ∧
    (∀ (E : Type) (opt_call : List ℚ → Except E (List Cx))
        (tjp : Unit → Except E (List ℚ)) (s : LoopState)
        (mv gradient : List ℚ) (f0 : List Cx) (g2 : List ℚ),
      opt_call mv = Except.ok f0 →
      (if gradient.length > 0 then tjp () else pure gradient) = Except.ok g2 →
      fE opt_call tjp s mv gradient =
        Except.ok
          ({ evaluation_history := s.evaluation_history ++ [max_real f0],
             cur_iter := s.cur_iter + 1 }, g2, f0.map Prod.fst)) := by
  refine ⟨?_, ?_, ?_, ?_, ?_⟩
  · intro E cf tp r x eta beta e h
    simp only [mappingE, h]
    rfl
  · intro E cf tp r x eta beta a e h1 h2
    simp only [mappingE, h1]
    show tp a beta eta >>= _ = _
    simp [h2]
  · intro E cf tp r x eta beta a b h1 h2
    simp only [mappingE, h1]
    show tp a beta eta >>= _ = _
    simp [h2]
  · intro E opt_call tjp s mv gradient e h
    simp only [fE, h]
    rfl
  · intro E opt_call tjp s mv gradient f0 g2 h1 h2
    simp only [fE, h1]
    show (if 0 < gradient.length then _ else _) = _
    by_cases hg : 0 < gradient.length
    · simp only [hg, if_pos, gt_iff_lt] at h2 ⊢
      rw [h2]
      rfl
    · simp only [hg, if_neg, gt_iff_lt, not_false_iff, if_false] at h2 ⊢
      cases h2
      rfl

/-- Witness for C8: a failing filter call's error value reaches `mapping`'s
caller unchanged. -/
theorem no_error_handling_witness :
    mappingE (fun _ _ _ _ _ => Except.error (7 : ℕ))
        (fun _ _ _ => Except.error (5 : ℕ)) 1 [] eta_i 4 =
      Except.error 7 :=
  no_error_handling.1 ℕ (fun _ _ _ _ _ => Except.error 7)
    (fun _ _ _ => Except.error 5) 1 [] eta_i 4 7 rfl

end Splitter
